import Mathlib

/-!
Shallow embedding of `ImageAsText` (`src/main.rs`): an image-to-text
converter with three renderers (ASCII, Unicode blocks, braille).

The Rust code computes luminance in IEEE-754 binary32 (`f32`) arithmetic.
We model every `f32` value by the exact rational it denotes, and every
`f32` operation by exact rational arithmetic followed by rounding to
nearest with ties to even at 24 bits of precision (`roundF32`).  All
values arising in this program are `0` or lie well inside the normal
positive range of `f32`, so neither subnormals, infinities nor NaN can
occur and this model is exact.

Rationals are represented by unnormalised numerator/denominator pairs
(`Q`, denominator positive by construction) so that every definition
reduces in the kernel; `Q.val` maps such a pair to the Mathlib rational
it denotes and is used only inside proofs.
-/

namespace ImageAsText

/-- An unnormalised rational: `num / den`.  Every value built by the
embedding keeps `den` positive. -/
structure Q where
  num : ℤ
  den : ℤ
deriving DecidableEq

/-- The rational number denoted by a `Q` (used in proofs only). -/
def Q.val (x : Q) : ℚ := (x.num : ℚ) / (x.den : ℚ)

/-- Strict comparison of `Q` values (valid when both denominators are
positive). -/
def Q.blt (x y : Q) : Bool := x.num * y.den < y.num * x.den

/-- Non-strict comparison of `Q` values (valid when both denominators are
positive). -/
def Q.ble (x y : Q) : Bool := x.num * y.den ≤ y.num * x.den

/-- Sum of two `Q` values. -/
def Q.add (x y : Q) : Q := ⟨x.num * y.den + y.num * x.den, x.den * y.den⟩

/-- Product of two `Q` values. -/
def Q.mul (x y : Q) : Q := ⟨x.num * y.num, x.den * y.den⟩

/-- Quotient of two `Q` values (valid when `y` is positive). -/
def Q.div (x y : Q) : Q := ⟨x.num * y.den, x.den * y.num⟩

/-- Floor of a `Q` value (valid when the denominator is positive). -/
def Q.floor (x : Q) : ℤ := x.num.fdiv x.den

/-- Ceiling of a `Q` value (valid when the denominator is positive). -/
def Q.ceil (x : Q) : ℤ := -Q.floor ⟨-x.num, x.den⟩

/-- Round a `Q` value to the nearest integer, ties to even.  `r2` is
`2 · den · (x - ⌊x⌋)`, which lies in `[0, 2 · den)` when `den > 0`. -/
def rne (x : Q) : ℤ :=
  let n := x.floor
  let r2 := 2 * (x.num - n * x.den)
  if r2 < x.den then n
  else if x.den < r2 then n + 1
  else if n % 2 = 0 then n else n + 1

/-- Scale a positive `Q` into the binade `[2^23, 2^24)` by repeated
doubling/halving, tracking the binary exponent; `fuel` bounds the number
of steps (300 is ample for every quantity in this program). -/
def normalizeBinade : Nat → Q → ℤ → Q × ℤ
  | 0, m, s => (m, s)
  | fuel+1, m, s =>
    if m.blt ⟨2^23, 1⟩ then normalizeBinade fuel ⟨2 * m.num, m.den⟩ (s-1)
    else if Q.ble ⟨2^24, 1⟩ m then normalizeBinade fuel ⟨m.num, 2 * m.den⟩ (s+1)
    else (m, s)

/-- The power `2^s` as a `Q`. -/
def pow2 (s : ℤ) : Q := if 0 ≤ s then ⟨2^s.toNat, 1⟩ else ⟨1, 2^(-s).toNat⟩

/-- The `f32` (binary32) value nearest to `q`, for `q` in the normal
positive range (round to nearest, ties to even); nonpositive inputs
(only exact `0` occurs in this program) are mapped to `0`. -/
def roundF32 (q : Q) : Q :=
  if q.ble ⟨0, 1⟩ then ⟨0, 1⟩
  else
    let ms := normalizeBinade 300 q 0
    Q.mul ⟨rne ms.1, 1⟩ (pow2 ms.2)

/-- `f32` multiplication of exactly-represented operands. -/
def mulF32 (a b : Q) : Q := roundF32 (a.mul b)

/-- `f32` addition of exactly-represented operands. -/
def addF32 (a b : Q) : Q := roundF32 (a.add b)

/-- `f32` division of exactly-represented operands (positive divisor). -/
def divF32 (a b : Q) : Q := roundF32 (a.div b)

/-- Rust `as u8` conversion from `f32`: truncate toward zero, saturating
at the bounds of `u8`. -/
def f32_as_u8 (q : Q) : Nat :=
  if q.blt ⟨0, 1⟩ then 0 else min 255 q.floor.toNat

/-- `RED_LUM: f32 = 0.299f32` (`src/main.rs` line 9). -/
def RED_LUM : Q := roundF32 ⟨299, 1000⟩

/-- `GREEN_LUM: f32 = 0.587f32` (`src/main.rs` line 10). -/
def GREEN_LUM : Q := roundF32 ⟨587, 1000⟩

/-- `BLUE_LUM: f32 = 0.114f32` (`src/main.rs` line 11). -/
def BLUE_LUM : Q := roundF32 ⟨114, 1000⟩

/-- `THRESHOLD: u8 = 96u8` (`src/main.rs` line 12). -/
def THRESHOLD : Nat := 96

/-- An RGBA pixel, each channel an 8-bit value. -/
structure Rgba where
  r : Nat
  g : Nat
  b : Nat
  a : Nat
deriving DecidableEq

/-- A decoded image: dimensions and a pixel grid.  `pixelAt` is only ever
consulted at in-bounds coordinates. -/
structure Image where
  width : Nat
  height : Nat
  pixelAt : Nat → Nat → Rgba

/-- `pixel_brightness` (`src/main.rs` lines 106-112): luminance of a pixel
computed in `f32` as `RED_LUM*r + GREEN_LUM*g + BLUE_LUM*b` (left
associated) and converted with `as u8`.  The alpha channel is not read. -/
def pixel_brightness (pixel : Rgba) : Nat :=
  f32_as_u8 (addF32
    (addF32 (mulF32 RED_LUM ⟨pixel.r, 1⟩) (mulF32 GREEN_LUM ⟨pixel.g, 1⟩))
    (mulF32 BLUE_LUM ⟨pixel.b, 1⟩))

/-- The pixel consulted by `is_dark` (`src/main.rs` lines 115-119): the
image pixel when `(x, y)` is in bounds, otherwise fully transparent
white `(255, 255, 255, 0)`. -/
def sample_pixel (image : Image) (x y : Nat) : Rgba :=
  if x < image.width ∧ y < image.height then image.pixelAt x y
  else ⟨255, 255, 255, 0⟩

/-- `is_dark` (`src/main.rs` lines 114-126): `1` when the sampled pixel's
luminance is strictly below the threshold `t`, else `0` (the Rust
function returns a `usize` used to index the glyph tables). -/
def is_dark (image : Image) (x y : Nat) (t : Nat) : Nat :=
  if pixel_brightness (sample_pixel image x y) < t then 1 else 0

/-- `ASCII_CHARS` (`src/main.rs` line 14). -/
def ASCII_CHARS : List Char := [' ', '.', ',', '-', '/', 'O', '#', '@']

/-- The characters one loop iteration pushes: the glyph twice when
`double` is set, once otherwise (`if double { out.push(ch); } out.push(ch);`). -/
def push_double (double : Bool) (c : Char) : List Char :=
  if double then [c, c] else [c]

/-- Assemble rows of glyphs into the output string, a newline after each
row. -/
def text_grid (rows : List (List Char)) : String :=
  ⟨(rows.map fun r => r ++ ['\n']).flatten⟩

/-- The glyph the ASCII renderer picks for the pixel at `(x, y)`
(`src/main.rs` line 185): `ASCII_CHARS[brightness / 32]`.  The index is
at most `7`, so the `getD` default is never consulted. -/
def ascii_cell (image : Image) (x y : Nat) : Char :=
  ASCII_CHARS.getD (pixel_brightness (image.pixelAt x y) / 32) ' '

/-- One output row of the ASCII renderer. -/
def ascii_row (image : Image) (double : Bool) (y : Nat) : List Char :=
  ((List.range image.width).map fun x => push_double double (ascii_cell image x y)).flatten

/-- `to_ascii` (`src/main.rs` lines 178-194). -/
def to_ascii (image : Image) (double : Bool) : String :=
  text_grid ((List.range image.height).map fun y => ascii_row image double y)

/-- `(n as f32 / d).ceil() as u32` (`src/main.rs` lines 131-132 and
157-158): the per-axis cell count, computed in `f32`. -/
def cell_count (n : Nat) (d : Q) : Nat :=
  min (2^32 - 1) (Q.ceil (divF32 (roundF32 ⟨(n : ℤ), 1⟩) d)).toNat

/-- Modelled from the spec: the `braille` crate's `BRAILLE` table (the
crate is a dependency, not part of this repository), indexed by 8
darkness samples (2 columns x 4 rows, `0` or `1`), yielding the
braille-pattern character with a raised dot for each `1` sample. -/
def BRAILLE (a b c d e f g h : Nat) : Char :=
  Char.ofNat (0x2800 + a*0x1 + b*0x8 + c*0x2 + d*0x10 + e*0x4 + f*0x20 + g*0x40 + h*0x80)

/-- Modelled from the spec: the `braille` crate's `BOX` table (the crate
is a dependency, not part of this repository), indexed by 4 darkness
samples (top-left, top-right, bottom-left, bottom-right, `0` or `1`),
yielding the corresponding quadrant block-element character. -/
def BOX (a b c d : Nat) : Char :=
  match a, b, c, d with
  | 0, 0, 0, 0 => ' '
  | 1, 0, 0, 0 => '▘'
  | 0, 1, 0, 0 => '▝'
  | 0, 0, 1, 0 => '▖'
  | 0, 0, 0, 1 => '▗'
  | 1, 1, 0, 0 => '▀'
  | 0, 0, 1, 1 => '▄'
  | 1, 0, 1, 0 => '▌'
  | 0, 1, 0, 1 => '▐'
  | 1, 0, 0, 1 => '▚'
  | 0, 1, 1, 0 => '▞'
  | 1, 1, 1, 0 => '▛'
  | 1, 1, 0, 1 => '▜'
  | 1, 0, 1, 1 => '▙'
  | 0, 1, 1, 1 => '▟'
  | 1, 1, 1, 1 => '█'
  | _, _, _, _ => ' '

/-- The glyph the braille renderer picks for cell `(cx, cy)`
(`src/main.rs` lines 136-143). -/
def braille_cell (image : Image) (t : Nat) (cx cy : Nat) : Char :=
  let x := cx * 2
  let y := cy * 4
  BRAILLE
    (is_dark image (x + 0) (y + 0) t) (is_dark image (x + 1) (y + 0) t)
    (is_dark image (x + 0) (y + 1) t) (is_dark image (x + 1) (y + 1) t)
    (is_dark image (x + 0) (y + 2) t) (is_dark image (x + 1) (y + 2) t)
    (is_dark image (x + 0) (y + 3) t) (is_dark image (x + 1) (y + 3) t)

/-- Braille cell rows: `(height as f32 / 4).ceil() as u32`. -/
def braille_ch (image : Image) : Nat := cell_count image.height ⟨4, 1⟩

/-- Braille cell columns: `(width as f32 / 2).ceil() as u32`. -/
def braille_cw (image : Image) : Nat := cell_count image.width ⟨2, 1⟩

/-- One output row of the braille renderer. -/
def braille_row (image : Image) (t : Nat) (double : Bool) (cy : Nat) : List Char :=
  ((List.range (braille_cw image)).map fun cx =>
    push_double double (braille_cell image t cx cy)).flatten

/-- `to_braille` (`src/main.rs` lines 128-152). -/
def to_braille (image : Image) (t : Nat) (double : Bool) : String :=
  text_grid ((List.range (braille_ch image)).map fun cy => braille_row image t double cy)

/-- The glyph the block renderer picks for cell `(cx, cy)`
(`src/main.rs` lines 162-167). -/
def block_cell (image : Image) (t : Nat) (cx cy : Nat) : Char :=
  let x := cx * 2
  let y := cy * 2
  BOX
    (is_dark image (x + 0) (y + 0) t) (is_dark image (x + 1) (y + 0) t)
    (is_dark image (x + 0) (y + 1) t) (is_dark image (x + 1) (y + 1) t)

/-- Block cell rows: `(height as f32 / 2).ceil() as u32`. -/
def block_ch (image : Image) : Nat := cell_count image.height ⟨2, 1⟩

/-- Block cell columns: `(width as f32 / 2).ceil() as u32`. -/
def block_cw (image : Image) : Nat := cell_count image.width ⟨2, 1⟩

/-- One output row of the block renderer. -/
def block_row (image : Image) (t : Nat) (double : Bool) (cy : Nat) : List Char :=
  ((List.range (block_cw image)).map fun cx =>
    push_double double (block_cell image t cx cy)).flatten

/-- `to_blocks` (`src/main.rs` lines 154-176). -/
def to_blocks (image : Image) (t : Nat) (double : Bool) : String :=
  text_grid ((List.range (block_ch image)).map fun cy => block_row image t double cy)

/-- The mode dispatch of `main` (`src/main.rs` lines 94-103): braille if
`-b`, else blocks if `-B`, else ASCII (only ASCII ignores the
threshold). -/
def render (image : Image) (braille blocks : Bool) (t : Nat) (double : Bool) : String :=
  if braille then to_braille image t double
  else if blocks then to_blocks image t double
  else to_ascii image double

/-- Error kinds of the CLI library (clap 2.x) used by `main`. -/
inductive ErrorKind where
  | io
  | invalidValue
  | argumentConflict
  | missingRequiredArgument
deriving DecidableEq

/-- The options `main` extracts from the command line. -/
structure ParsedFlags where
  input : String
  double : Bool
  braille : Bool
  blocks : Bool
deriving DecidableEq

/-- Modelled from the spec: clap's parsing of this app's command line
(clap is a dependency, not part of this repository; `src/main.rs` lines
17-30 declare the arguments).  Only what the claims need is modelled:
the positional `INPUT` is required, `-d`/`--double-width`,
`-b`/`--braille` and `-B`/`--blocks` are flags, and `--blocks` conflicts
with `--braille` (`conflicts_with[braille]`, line 29), so parsing fails
with an argument-conflict error when both appear. -/
def parse_args (args : List String) : Except ErrorKind ParsedFlags :=
  let braille := args.contains "-b" || args.contains "--braille"
  let blocks := args.contains "-B" || args.contains "--blocks"
  if braille && blocks then .error .argumentConflict
  else
    match args.find? (fun s => !s.startsWith "-") with
    | none => .error .missingRequiredArgument
    | some input =>
      .ok ⟨input, args.contains "-d" || args.contains "--double-width", braille, blocks⟩

/-- Argument parsing composed with mode dispatch and rendering: when
parsing fails, the program exits with that error and never renders. -/
def run_program (args : List String) (image : Image) (t : Nat) : Except ErrorKind String :=
  match parse_args args with
  | .error k => .error k
  | .ok f => .ok (render image f.braille f.blocks t f.double)

/-- `main`'s input handling (`src/main.rs` lines 34-61) composed with
rendering (lines 94-103): reading the input may fail, decoding the bytes
may fail.  A read failure exits via `error.into()`, which converts the
I/O error into a clap error with the `Io` kind (the conversion lives in
clap, modelled from the spec); a decode failure exits with an explicitly
constructed `ErrorKind::Io` carrying the decoder's message (lines
55-59).  Only a fully successful run produces the rendered string. -/
def run_main (readResult : Except String (List Nat))
    (decode : List Nat → Except String Image)
    (braille blocks : Bool) (t : Nat) (double : Bool) :
    Except (ErrorKind × String) String :=
  match readResult with
  | .error msg => .error (.io, msg)
  | .ok data =>
    match decode data with
    | .error msg => .error (.io, msg)
    | .ok image => .ok (render image braille blocks t double)

/-- The spec's closed-form luminance: `0.299*R + 0.587*G + 0.114*B`
computed exactly and truncated to an 8-bit value (stated for comparison
with the code's `f32` computation). -/
def luminance_spec (r g b : Nat) : Nat :=
  min 255 ((299 * r + 587 * g + 114 * b) / 1000)

/-- Duplicate every character of a line except newlines. -/
def dup_non_newline : List Char → List Char
  | [] => []
  | c :: cs => (if c = '\n' then [c] else [c, c]) ++ dup_non_newline cs

/-- The string `s` is a grid of `lines` rows, each of `glyphs`
newline-free characters, each row terminated by a newline. -/
def grid_shape (s : String) (lines glyphs : Nat) : Prop :=
  ∃ rows : List (List Char), s = text_grid rows ∧ rows.length = lines ∧
    ∀ r ∈ rows, r.length = glyphs ∧ '\n' ∉ r

/-- A 1x1 all-white opaque image. -/
def imgWhite1 : Image := ⟨1, 1, fun _ _ => ⟨255, 255, 255, 255⟩⟩

/-- A 1x1 all-black opaque image. -/
def imgBlack1 : Image := ⟨1, 1, fun _ _ => ⟨0, 0, 0, 255⟩⟩

/-- A 1x1 image whose pixel `(32, 252, 22)` has exact luminance exactly
`160` but `f32` luminance just below it. -/
def imgBoundary1 : Image := ⟨1, 1, fun _ _ => ⟨32, 252, 22, 255⟩⟩

/-- A 1-pixel-wide black image of height `2^24 + 1`, the smallest height
whose `f32` conversion is inexact. -/
def imgTall : Image := ⟨1, 16777217, fun _ _ => ⟨0, 0, 0, 255⟩⟩

/-- A 2x4 all-black opaque image (one full braille cell, two full block
cells). -/
def imgBlack2x4 : Image := ⟨2, 4, fun _ _ => ⟨0, 0, 0, 255⟩⟩

/-- A 3x5 mid-gray opaque image. -/
def imgGray3x5 : Image := ⟨3, 5, fun _ _ => ⟨100, 100, 100, 255⟩⟩

/-- A 1x1 fully transparent black image. -/
def imgAlpha0 : Image := ⟨1, 1, fun _ _ => ⟨0, 0, 0, 0⟩⟩

-- scratch checks against an independent bit-level f32 emulation
example : RED_LUM = ⟨10032775, 2^25⟩ := by decide
example : GREEN_LUM = ⟨9848226, 2^24⟩ := by decide
example : BLUE_LUM = ⟨15300821, 2^27⟩ := by decide
example : pixel_brightness ⟨255, 255, 255, 255⟩ = 255 := by decide
example : pixel_brightness ⟨0, 0, 0, 255⟩ = 0 := by decide
example : pixel_brightness ⟨255, 0, 0, 255⟩ = 76 := by decide
example : pixel_brightness ⟨32, 252, 22, 255⟩ = 159 := by decide
example : pixel_brightness ⟨255, 255, 255, 0⟩ = 255 := by decide
example : cell_count 5 ⟨4, 1⟩ = 2 := by decide
example : cell_count 16777217 ⟨4, 1⟩ = 4194304 := by decide
example : to_ascii ⟨1, 1, fun _ _ => ⟨255, 255, 255, 255⟩⟩ false = "@\n" := by decide
example : to_ascii ⟨1, 1, fun _ _ => ⟨0, 0, 0, 255⟩⟩ false = " \n" := by decide
example : to_blocks ⟨2, 2, fun _ _ => ⟨0, 0, 0, 255⟩⟩ 96 false = "█\n" := by decide
example : to_braille ⟨2, 4, fun _ _ => ⟨0, 0, 0, 255⟩⟩ 96 false = "⣿\n" := by decide

/-- C1 (counterexample): with default options the code renders the 1x1
white opaque image as `"@\n"` and the 1x1 black opaque image as `" \n"`,
not the other way round as the claim states. -/
theorem c1_counterexample :
    ¬ (to_ascii imgWhite1 false = " \n" ∧ to_ascii imgBlack1 false = "@\n") := by
  decide

/-- C1 (amended): in ASCII mode with default options, a 1x1 white opaque
pixel image renders as `"@"` followed by a newline, and a 1x1 black
opaque pixel image renders as a single space followed by a newline. -/
theorem c1_ascii_1x1_swapped :
    to_ascii imgWhite1 false = "@\n" ∧ to_ascii imgBlack1 false = " \n" := by
  decide

/-- C4: a cell sample outside the image bounds reads the fully
transparent white pixel `(255, 255, 255, 0)`, which classifies as light
(not dark) for every threshold in `0`-`255`. -/
theorem c4_oob_sample_light (image : Image) (x y t : Nat)
    (hxy : ¬ (x < image.width ∧ y < image.height)) (ht : t ≤ 255) :
    sample_pixel image x y = ⟨255, 255, 255, 0⟩ ∧ is_dark image x y t = 0 := by
  have hs : sample_pixel image x y = ⟨255, 255, 255, 0⟩ := by
    rw [sample_pixel, if_neg hxy]
  have hb : pixel_brightness ⟨255, 255, 255, 0⟩ = 255 := by decide
  refine ⟨hs, ?_⟩
  rw [is_dark, hs, hb, if_neg (by omega)]

/-- C4 (witness): sampling `(5, 0)` in a 1x1 image is out of bounds and
classifies as light even at the maximal threshold `255`. -/
theorem c4_witness :
    sample_pixel imgWhite1 5 0 = ⟨255, 255, 255, 0⟩ ∧ is_dark imgWhite1 5 0 255 = 0 :=
  c4_oob_sample_light imgWhite1 5 0 255 (by decide) (by decide)

/-- C9: the ASCII-mode output is independent of the threshold option:
for any two thresholds in `0`-`255` the rendered strings coincide
(`to_ascii` is not passed the threshold at all). -/
theorem c9_ascii_threshold_independent (image : Image) (t1 t2 : Nat) (double : Bool)
    (h1 : t1 ≤ 255) (h2 : t2 ≤ 255) :
    render image false false t1 double = render image false false t2 double := rfl

/-- C9 (witness): at thresholds `0` and `255` the ASCII render of the
3x5 gray image is the same string. -/
theorem c9_witness :
    render imgGray3x5 false false 0 false = render imgGray3x5 false false 255 false :=
  c9_ascii_threshold_independent imgGray3x5 0 255 false (by decide) (by decide)

/-- C7: a command line containing both `--blocks` and `--braille` is
rejected by argument parsing with an argument-conflict error, so the
program never renders. -/
theorem c7_blocks_braille_conflict (args : List String) (image : Image) (t : Nat)
    (hB : "--blocks" ∈ args) (hb : "--braille" ∈ args) :
    parse_args args = .error .argumentConflict ∧
    run_program args image t = .error .argumentConflict := by
  have h1 : args.contains "--braille" = true := List.elem_eq_true_of_mem hb
  have h2 : args.contains "--blocks" = true := List.elem_eq_true_of_mem hB
  have hp : parse_args args = .error .argumentConflict := by
    unfold parse_args
    rw [h1, h2]
    simp
  exact ⟨hp, by rw [run_program, hp]⟩

/-- C7 (witness): the invocation `img.png --blocks --braille` is
rejected with the argument-conflict error. -/
theorem c7_witness :
    parse_args ["img.png", "--blocks", "--braille"] = .error .argumentConflict ∧
    run_program ["img.png", "--blocks", "--braille"] imgWhite1 96 = .error .argumentConflict :=
  c7_blocks_braille_conflict ["img.png", "--blocks", "--braille"] imgWhite1 96
    (by decide) (by decide)

/-- C8 (counterexample): a decode failure is reported with clap's `Io`
error kind - the same kind as a read failure - not with a decode
-specific kind as the claim states. -/
theorem c8_counterexample :
    run_main (.ok [0]) (fun _ => .error "bad image") false false 96 false
        = .error (.io, "bad image") ∧
    run_main (.error "no such file") (fun _ => .error "bad image") false false 96 false
        = .error (.io, "no such file") :=
  ⟨rfl, rfl⟩

/-- C8 (amended): an unreadable input fails with the I/O error kind, and
unrecognized image bytes also fail with the I/O error kind carrying the
decoder's message; in both cases the result is an error (descriptive
message, non-zero exit) and no rendered output is produced. -/
theorem c8_failures_terminal (braille blocks : Bool) (t : Nat) (double : Bool)
    (msg : String) (decode : List Nat → Except String Image) (data : List Nat) :
    run_main (.error msg) decode braille blocks t double = .error (.io, msg) ∧
    (decode data = .error msg →
      run_main (.ok data) decode braille blocks t double = .error (.io, msg)) := by
  refine ⟨rfl, fun h => ?_⟩
  rw [run_main, h]

/-- C8 (witness): a failing read and a failing decode both produce the
`Io`-kind error with the respective message. -/
theorem c8_witness :
    run_main (.error "unreadable") (fun _ => .error "bad image") false false 96 false
        = .error (.io, "unreadable") ∧
    run_main (.ok []) (fun _ => .error "bad image") false false 96 false
        = .error (.io, "bad image") :=
  ⟨(c8_failures_terminal false false 96 false "unreadable" (fun _ => .error "bad image") []).1,
   (c8_failures_terminal false false 96 false "bad image" (fun _ => .error "bad image") []).2 rfl⟩

lemma q_den_cast_pos {x : Q} (h : 0 < x.den) : (0:ℚ) < (x.den : ℚ) := by
  exact_mod_cast h

lemma q_val_lt_int {x : Q} (h : 0 < x.den) {z : ℤ} :
    x.val < (z:ℚ) ↔ x.num < z * x.den := by
  rw [Q.val, div_lt_iff (q_den_cast_pos h)]
  exact_mod_cast Iff.rfl

lemma q_int_le_val {x : Q} (h : 0 < x.den) {z : ℤ} :
    (z:ℚ) ≤ x.val ↔ z * x.den ≤ x.num := by
  rw [Q.val, le_div_iff (q_den_cast_pos h)]
  exact_mod_cast Iff.rfl

lemma q_int_lt_val {x : Q} (h : 0 < x.den) {z : ℤ} :
    (z:ℚ) < x.val ↔ z * x.den < x.num := by
  rw [Q.val, lt_div_iff (q_den_cast_pos h)]
  exact_mod_cast Iff.rfl

lemma q_val_le_int {x : Q} (h : 0 < x.den) {z : ℤ} :
    x.val ≤ (z:ℚ) ↔ x.num ≤ z * x.den := by
  rw [Q.val, div_le_iff (q_den_cast_pos h)]
  exact_mod_cast Iff.rfl

lemma q_val_pos {x : Q} (h : 0 < x.den) : 0 < x.val ↔ 0 < x.num := by
  rw [Q.val, lt_div_iff (q_den_cast_pos h), zero_mul]
  exact_mod_cast Iff.rfl

lemma q_val_int_num {x : Q} (h : 0 < x.den) {z : ℤ} (hv : x.val = (z:ℚ)) :
    x.num = z * x.den := by
  have hd : ((x.den : ℚ)) ≠ 0 := ne_of_gt (q_den_cast_pos h)
  rw [Q.val, div_eq_iff hd] at hv
  exact_mod_cast hv

lemma q_mul_val (x y : Q) : (x.mul y).val = x.val * y.val := by
  simp only [Q.mul, Q.val]
  push_cast
  rw [div_mul_div_comm]

lemma q_blt_iff {x y : Q} : x.blt y = true ↔ x.num * y.den < y.num * x.den := by
  simp [Q.blt]

lemma q_ble_iff {x y : Q} : x.ble y = true ↔ x.num * y.den ≤ y.num * x.den := by
  simp [Q.ble]

lemma q_val_double (x : Q) : (Q.mk (2 * x.num) x.den).val = 2 * x.val := by
  simp only [Q.val]
  push_cast
  rw [mul_div_assoc]

lemma q_val_half (x : Q) : (Q.mk x.num (2 * x.den)).val = x.val / 2 := by
  simp only [Q.val]
  push_cast
  rw [div_div, mul_comm]

lemma pow2_den_pos (s : ℤ) : 0 < (pow2 s).den := by
  unfold pow2
  split
  · exact one_pos
  · positivity

lemma pow2_val (s : ℤ) : (pow2 s).val = (2:ℚ)^s := by
  unfold pow2 Q.val
  split
  case isTrue h =>
    push_cast
    rw [div_one, ← zpow_natCast (2:ℚ) s.toNat, Int.toNat_of_nonneg h]
  case isFalse h =>
    push_cast
    rw [one_div, ← zpow_natCast (2:ℚ) (-s).toNat, Int.toNat_of_nonneg (by omega),
      ← zpow_neg, neg_neg]

lemma q_ceil_val {x : Q} (h : 0 < x.den) : Q.ceil x = ⌈x.val⌉ := by
  symm
  rw [Int.ceil_eq_iff]
  have h1 := Int.fdiv_add_fmod (-x.num) x.den
  have h2 := Int.fmod_nonneg' (-x.num) h
  have h3 := Int.fmod_lt_of_pos (-x.num) h
  have hceil : Q.ceil x = -((-x.num).fdiv x.den) := rfl
  rw [hceil]
  constructor
  · rw [show ((-((-x.num).fdiv x.den) : ℤ) : ℚ) - 1 =
      (((-((-x.num).fdiv x.den) - 1) : ℤ) : ℚ) by push_cast; ring]
    rw [q_int_lt_val h]
    nlinarith [h1, h3]
  · rw [q_val_le_int h]
    nlinarith [h1, h2]

lemma rne_int {x : Q} (h : 0 < x.den) {z : ℤ} (hx : x.num = z * x.den) :
    rne x = z := by
  have hf : x.floor = z := by
    rw [Q.floor, hx, Int.mul_fdiv_cancel z (by omega)]
  simp only [rne, hf, hx, sub_self, mul_zero]
  rw [if_pos h]

lemma normalizeBinade_spec (fuel : Nat) : ∀ (m : Q) (s : ℤ),
    0 < m.den → 0 < m.num →
    (2:ℚ)^23 ≤ m.val * 2^fuel →
    m.val < 2^24 * 2^fuel →
    0 < (normalizeBinade fuel m s).1.den ∧ 0 < (normalizeBinade fuel m s).1.num ∧
    (2:ℚ)^23 ≤ (normalizeBinade fuel m s).1.val ∧
    (normalizeBinade fuel m s).1.val < 2^24 ∧
    (normalizeBinade fuel m s).1.val * (2:ℚ)^(normalizeBinade fuel m s).2
      = m.val * (2:ℚ)^s := by
  induction fuel with
  | zero =>
    intro m s hd hn hlo hhi
    rw [pow_zero, mul_one] at hlo hhi
    exact ⟨hd, hn, hlo, hhi, rfl⟩
  | succ fuel ih =>
    intro m s hd hn hlo hhi
    simp only [normalizeBinade]
    by_cases h1 : m.blt ⟨2^23, 1⟩ = true
    · rw [if_pos h1]
      have hvlt : m.val < (2:ℚ)^23 := by
        have := q_blt_iff.mp h1
        rw [mul_one] at this
        have := (q_val_lt_int hd (z := 2^23)).mpr this
        exact_mod_cast this
      have hval2 := q_val_double m
      have h := ih ⟨2 * m.num, m.den⟩ (s - 1) hd (by show 0 < 2 * m.num; omega)
        (by rw [hval2]; rw [pow_succ (2:ℚ) fuel] at hlo; nlinarith)
        (by rw [hval2]
            have h2f : (1:ℚ) ≤ 2^fuel := one_le_pow₀ (by norm_num)
            nlinarith)
      refine ⟨h.1, h.2.1, h.2.2.1, h.2.2.2.1, ?_⟩
      rw [h.2.2.2.2, hval2, zpow_sub_one₀ (two_ne_zero)]
      ring
    · rw [if_neg h1]
      by_cases h2 : Q.ble ⟨2^24, 1⟩ m = true
      · rw [if_pos h2]
        have hvge : (2:ℚ)^24 ≤ m.val := by
          have := q_ble_iff.mp h2
          rw [mul_one] at this
          have := (q_int_le_val hd (z := 2^24)).mpr this
          exact_mod_cast this
        have hval2 := q_val_half m
        have h := ih ⟨m.num, 2 * m.den⟩ (s + 1) (by show 0 < 2 * m.den; omega) hn
          (by rw [hval2]
              have h2f : (1:ℚ) ≤ 2^fuel := one_le_pow₀ (by norm_num)
              nlinarith)
          (by rw [hval2]; rw [pow_succ (2:ℚ) fuel] at hhi; nlinarith)
        refine ⟨h.1, h.2.1, h.2.2.1, h.2.2.2.1, ?_⟩
        rw [h.2.2.2.2, hval2, zpow_add_one₀ (two_ne_zero)]
        ring
      · rw [if_neg h2]
        refine ⟨hd, hn, ?_, ?_, rfl⟩
        · have hnot : ¬ (m.num * 1 < 2^23 * m.den) := fun hc => h1 (q_blt_iff.mpr hc)
          rw [mul_one, not_lt] at hnot
          have := (q_int_le_val hd (z := 2^23)).mpr hnot
          exact_mod_cast this
        · have hnot : ¬ ((2:ℤ)^24 * m.den ≤ m.num * 1) := fun hc => h2 (q_ble_iff.mpr hc)
          rw [mul_one, not_le] at hnot
          have := (q_val_lt_int hd (z := 2^24)).mpr hnot
          exact_mod_cast this

lemma roundF32_exact_val (x : Q) (hd : 0 < x.den) (hn : 0 < x.num) (k j : ℕ)
    (hk : 0 < k) (hk2 : k ≤ 2^24) (hj : j ≤ 30) (hval : x.val = (k:ℚ)/2^j) :
    0 < (roundF32 x).den ∧ (roundF32 x).val = (k:ℚ)/2^j := by
  set r := normalizeBinade 300 x 0 with hrdef
  have hble : ¬ (x.ble ⟨0, 1⟩ = true) := by
    rw [q_ble_iff]
    push_neg
    show 0 * x.den < x.num * 1
    omega
  have hrw : roundF32 x = Q.mul ⟨rne r.1, 1⟩ (pow2 r.2) := by
    rw [roundF32, if_neg hble]
  have hklb : (1:ℚ) ≤ (k:ℚ) := by exact_mod_cast hk
  have hk24 : (k:ℚ) ≤ 2^24 := by exact_mod_cast hk2
  have hjp : (0:ℚ) < 2^j := by positivity
  have hx1 : (1:ℚ)/2^30 ≤ x.val := by
    rw [hval]
    exact div_le_div (by positivity) hklb hjp (pow_le_pow_right (by norm_num) hj)
  have hx2 : x.val ≤ 2^24 := by
    rw [hval]
    calc (k:ℚ)/2^j ≤ (k:ℚ) := div_le_self (by positivity) (one_le_pow₀ (by norm_num))
    _ ≤ 2^24 := hk24
  have hlo : (2:ℚ)^23 ≤ x.val * 2^300 := by
    calc (2:ℚ)^23 ≤ (1/2^30) * 2^300 := by norm_num
    _ ≤ x.val * 2^300 := mul_le_mul_of_nonneg_right hx1 (by positivity)
  have hhi : x.val < 2^24 * 2^300 := by
    calc x.val ≤ 2^24 := hx2
    _ < 2^24 * 2^300 := by norm_num
  obtain ⟨hrd, hrn, hrlo, hrhi, hrprod⟩ := normalizeBinade_spec 300 x 0 hd hn hlo hhi
  rw [← hrdef, zpow_zero, mul_one] at hrprod
  have hu : r.1.val * (2:ℚ)^(r.2 + (j:ℤ)) = k := by
    rw [zpow_add₀ (two_ne_zero : (2:ℚ) ≠ 0), ← mul_assoc, hrprod, hval, zpow_natCast]
    exact div_mul_cancel₀ _ (ne_of_gt hjp)
  have hz : ∃ z : ℕ, r.1.val = (z:ℚ) := by
    rcases le_or_lt (r.2 + (j:ℤ)) 0 with hu0 | hu0
    · refine ⟨k * 2^(-(r.2 + (j:ℤ))).toNat, ?_⟩
      push_cast
      rw [← zpow_natCast (2:ℚ) (-(r.2 + (j:ℤ))).toNat, Int.toNat_of_nonneg (by omega)]
      rw [← hu, mul_assoc, ← zpow_add₀ (two_ne_zero : (2:ℚ) ≠ 0),
        show (r.2 + (j:ℤ)) + -(r.2 + (j:ℤ)) = 0 by ring, zpow_zero, mul_one]
    · have hu1 : r.2 + (j:ℤ) = 1 := by
        by_contra hne
        have hu2 : (2:ℤ) ≤ r.2 + (j:ℤ) := by omega
        have h4 : (4:ℚ) ≤ 2^(r.2 + (j:ℤ)) := by
          calc (4:ℚ) = 2^(2:ℤ) := by norm_num
          _ ≤ 2^(r.2 + (j:ℤ)) := zpow_le_zpow_right₀ (by norm_num) hu2
        nlinarith [hrlo, hu, hk24]
      refine ⟨2^23, ?_⟩
      rw [hu1, zpow_one] at hu
      push_cast
      linarith [hrlo, hu, hk24]
  obtain ⟨z, hz⟩ := hz
  have hnum : r.1.num = (z:ℤ) * r.1.den :=
    q_val_int_num hrd (by exact_mod_cast hz)
  have hrne : rne r.1 = (z:ℤ) := rne_int hrd hnum
  rw [hrw]
  constructor
  · show 0 < 1 * (pow2 r.2).den
    have := pow2_den_pos r.2
    omega
  · rw [q_mul_val, pow2_val, hrne]
    have hzval : (Q.mk (z:ℤ) 1).val = (z:ℚ) := by simp [Q.val]
    rw [hzval, ← hz, hrprod, hval]

lemma ceil_div_two (n : ℕ) : ⌈(n:ℚ)/2⌉ = ((n+1)/2 : ℕ) := by
  rw [Int.ceil_eq_iff]
  have h1 : 2 * ((n+1)/2) ≤ n + 1 := by omega
  have h2 : n ≤ 2 * ((n+1)/2) := by omega
  have hc1 : (2:ℚ) * (((n+1)/2 : ℕ) : ℚ) ≤ (n:ℚ) + 1 := by exact_mod_cast h1
  have hc2 : (n:ℚ) ≤ 2 * (((n+1)/2 : ℕ) : ℚ) := by exact_mod_cast h2
  constructor
  · rw [Int.cast_natCast]
    linarith
  · rw [Int.cast_natCast]
    linarith

lemma ceil_div_four (n : ℕ) : ⌈(n:ℚ)/4⌉ = ((n+3)/4 : ℕ) := by
  rw [Int.ceil_eq_iff]
  have h1 : 4 * ((n+3)/4) ≤ n + 3 := by omega
  have h2 : n ≤ 4 * ((n+3)/4) := by omega
  have hc1 : (4:ℚ) * (((n+3)/4 : ℕ) : ℚ) ≤ (n:ℚ) + 3 := by exact_mod_cast h1
  have hc2 : (n:ℚ) ≤ 4 * (((n+3)/4 : ℕ) : ℚ) := by exact_mod_cast h2
  constructor
  · rw [Int.cast_natCast]
    linarith
  · rw [Int.cast_natCast]
    linarith

lemma cell_count_two (n : ℕ) (hn : n ≤ 2^24) : cell_count n ⟨2, 1⟩ = (n+1)/2 := by
  rcases Nat.eq_zero_or_pos n with h0 | hp
  · subst h0; decide
  · rw [cell_count]
    set R1 := roundF32 ⟨(n:ℤ), 1⟩ with hR1
    have h1 := roundF32_exact_val ⟨(n:ℤ), 1⟩ (by norm_num) (by show (0:ℤ) < (n:ℤ); exact_mod_cast hp) n 0 hp hn
      (by norm_num) (by simp [Q.val])
    rw [← hR1] at h1
    have hval1 : R1.val = (n:ℚ) := by rw [h1.2]; norm_num
    have hnum1 : 0 < R1.num := (q_val_pos h1.1).mp (by rw [hval1]; exact_mod_cast hp)
    have hDden : 0 < (R1.div ⟨2, 1⟩).den := by
      show 0 < R1.den * 2
      have := h1.1
      omega
    have hDnum : 0 < (R1.div ⟨2, 1⟩).num := by
      show 0 < R1.num * 1
      omega
    have hDval : (R1.div ⟨2, 1⟩).val = (n:ℚ)/2^1 := by
      show (Q.mk (R1.num * 1) (R1.den * 2)).val = (n:ℚ)/2^1
      rw [Q.val]
      push_cast
      rw [mul_one, pow_one, ← div_div]
      rw [show ((R1.num:ℚ)/(R1.den:ℚ)) = R1.val from rfl, hval1]
    have h2 := roundF32_exact_val (R1.div ⟨2, 1⟩) hDden hDnum n 1 hp hn (by norm_num) hDval
    have hceil : Q.ceil (divF32 R1 ⟨2, 1⟩) = ⌈(n:ℚ)/2⌉ := by
      rw [show divF32 R1 ⟨2, 1⟩ = roundF32 (R1.div ⟨2, 1⟩) from rfl,
        q_ceil_val h2.1, h2.2]
      norm_num
    rw [hceil, ceil_div_two, Int.toNat_natCast]
    exact Nat.min_eq_right (by omega)

lemma cell_count_four (n : ℕ) (hn : n ≤ 2^24) : cell_count n ⟨4, 1⟩ = (n+3)/4 := by
  rcases Nat.eq_zero_or_pos n with h0 | hp
  · subst h0; decide
  · rw [cell_count]
    set R1 := roundF32 ⟨(n:ℤ), 1⟩ with hR1
    have h1 := roundF32_exact_val ⟨(n:ℤ), 1⟩ (by norm_num) (by show (0:ℤ) < (n:ℤ); exact_mod_cast hp) n 0 hp hn
      (by norm_num) (by simp [Q.val])
    rw [← hR1] at h1
    have hval1 : R1.val = (n:ℚ) := by rw [h1.2]; norm_num
    have hnum1 : 0 < R1.num := (q_val_pos h1.1).mp (by rw [hval1]; exact_mod_cast hp)
    have hDden : 0 < (R1.div ⟨4, 1⟩).den := by
      show 0 < R1.den * 4
      have := h1.1
      omega
    have hDnum : 0 < (R1.div ⟨4, 1⟩).num := by
      show 0 < R1.num * 1
      omega
    have hDval : (R1.div ⟨4, 1⟩).val = (n:ℚ)/2^2 := by
      show (Q.mk (R1.num * 1) (R1.den * 4)).val = (n:ℚ)/2^2
      rw [Q.val]
      push_cast
      rw [mul_one, show ((2:ℚ)^2) = 4 by norm_num, ← div_div]
      rw [show ((R1.num:ℚ)/(R1.den:ℚ)) = R1.val from rfl, hval1]
    have h2 := roundF32_exact_val (R1.div ⟨4, 1⟩) hDden hDnum n 2 hp hn (by norm_num) hDval
    have hceil : Q.ceil (divF32 R1 ⟨4, 1⟩) = ⌈(n:ℚ)/4⌉ := by
      rw [show divF32 R1 ⟨4, 1⟩ = roundF32 (R1.div ⟨4, 1⟩) from rfl,
        q_ceil_val h2.1, h2.2]
      norm_num
    rw [hceil, ceil_div_four, Int.toNat_natCast]
    exact Nat.min_eq_right (by omega)

lemma flatten_singletons {α β : Type} (f : α → β) (l : List α) :
    (l.map fun x => [f x]).flatten = l.map f := by
  induction l with
  | nil => rfl
  | cons x xs ih => simp [ih]

lemma ascii_row_single (image : Image) (y : Nat) :
    ascii_row image false y = (List.range image.width).map fun x => ascii_cell image x y := by
  rw [ascii_row]
  simp [push_double, flatten_singletons]

lemma block_row_single (image : Image) (t : Nat) (cy : Nat) :
    block_row image t false cy
      = (List.range (block_cw image)).map fun cx => block_cell image t cx cy := by
  rw [block_row]
  simp [push_double, flatten_singletons]

lemma braille_row_single (image : Image) (t : Nat) (cy : Nat) :
    braille_row image t false cy
      = (List.range (braille_cw image)).map fun cx => braille_cell image t cx cy := by
  rw [braille_row]
  simp [push_double, flatten_singletons]

lemma text_grid_get (W : Nat) (rows : List (List Char)) : ∀ (cy cx : Nat),
    (∀ r ∈ rows, r.length = W) → cy < rows.length → cx < W →
    (text_grid rows).data[cy * (W+1) + cx]? = (rows.getD cy [])[cx]? := by
  induction rows with
  | nil => intro cy cx _ h _; simp at h
  | cons r rs ih =>
    intro cy cx hW hcy hcx
    have hr : r.length = W := hW r (List.mem_cons_self r rs)
    match cy with
    | 0 =>
      show ((r :: rs).map (fun r => r ++ ['\n'])).flatten[0 * (W+1) + cx]? = r[cx]?
      rw [List.map_cons, List.flatten_cons, Nat.zero_mul, Nat.zero_add]
      rw [List.getElem?_append_left (by simp; omega)]
      rw [List.getElem?_append_left (by omega)]
    | cy+1 =>
      show ((r :: rs).map (fun r => r ++ ['\n'])).flatten[(cy+1) * (W+1) + cx]?
        = (rs.getD cy [])[cx]?
      rw [List.map_cons, List.flatten_cons]
      rw [show (cy+1) * (W+1) + cx = (r ++ ['\n']).length + (cy * (W+1) + cx) by
        simp [hr]; ring]
      rw [List.getElem?_append_right (by omega), Nat.add_sub_cancel_left]
      exact ih cy cx (fun r' hr' => hW r' (List.mem_cons_of_mem r hr')) (by simpa using hcy) hcx

lemma text_grid_count (rows : List (List Char)) (h : ∀ r ∈ rows, '\n' ∉ r) :
    ((text_grid rows).data).count '\n' = rows.length := by
  induction rows with
  | nil => rfl
  | cons r rs ih =>
    show (((r :: rs).map fun r => r ++ ['\n']).flatten).count '\n' = rs.length + 1
    rw [List.map_cons, List.flatten_cons, List.count_append, List.count_append]
    have h0 : r.count '\n' = 0 := List.count_eq_zero.mpr (h r (List.mem_cons_self r rs))
    rw [h0, show (List.map (fun r => r ++ ['\n']) rs).flatten = (text_grid rs).data from rfl,
      ih (fun r' hr' => h r' (List.mem_cons_of_mem r hr'))]
    show 0 + 1 + rs.length = rs.length + 1
    omega

lemma grid_shape_count {s : String} {L W : Nat} (h : grid_shape s L W) :
    s.data.count '\n' = L := by
  obtain ⟨rows, hs, hlen, hrow⟩ := h
  rw [hs, text_grid_count rows (fun r hr => (hrow r hr).2)]
  exact hlen

lemma grid_shape_intro (f : Nat → List Char) (L W : Nat)
    (h : ∀ y, y < L → (f y).length = W ∧ '\n' ∉ f y) :
    grid_shape (text_grid ((List.range L).map f)) L W := by
  refine ⟨(List.range L).map f, rfl, by simp, ?_⟩
  intro r hr
  obtain ⟨y, hy, rfl⟩ := List.mem_map.mp hr
  exact h y (List.mem_range.mp hy)

lemma ascii_chars_getD_ne (i : Nat) : ASCII_CHARS.getD i ' ' ≠ '\n' := by
  rcases lt_or_ge i 8 with h | h
  · interval_cases i <;> decide
  · rw [List.getD_eq_default _ _ (by simpa [ASCII_CHARS] using h)]
    decide

lemma is_dark_lt_two {image : Image} {x y t : Nat} : is_dark image x y t < 2 := by
  rw [is_dark]
  split <;> omega

lemma BRAILLE_ne_newline : ∀ (a b c d e f g h : Fin 2),
    BRAILLE ↑a ↑b ↑c ↑d ↑e ↑f ↑g ↑h ≠ '\n' := by decide

lemma BOX_ne_newline : ∀ (a b c d : Fin 2), BOX ↑a ↑b ↑c ↑d ≠ '\n' := by decide

lemma ascii_cell_ne_newline (image : Image) (x y : Nat) : ascii_cell image x y ≠ '\n' := by
  unfold ascii_cell
  exact ascii_chars_getD_ne _

lemma block_cell_ne_newline (image : Image) (t cx cy : Nat) :
    block_cell image t cx cy ≠ '\n' := by
  unfold block_cell
  exact BOX_ne_newline ⟨_, is_dark_lt_two⟩ ⟨_, is_dark_lt_two⟩
    ⟨_, is_dark_lt_two⟩ ⟨_, is_dark_lt_two⟩

lemma braille_cell_ne_newline (image : Image) (t cx cy : Nat) :
    braille_cell image t cx cy ≠ '\n' := by
  unfold braille_cell
  exact BRAILLE_ne_newline ⟨_, is_dark_lt_two⟩ ⟨_, is_dark_lt_two⟩
    ⟨_, is_dark_lt_two⟩ ⟨_, is_dark_lt_two⟩ ⟨_, is_dark_lt_two⟩
    ⟨_, is_dark_lt_two⟩ ⟨_, is_dark_lt_two⟩ ⟨_, is_dark_lt_two⟩

lemma ascii_grid_structure (image : Image) :
    grid_shape (to_ascii image false) image.height image.width := by
  rw [to_ascii]
  apply grid_shape_intro
  intro y _
  rw [ascii_row_single]
  refine ⟨by simp, ?_⟩
  intro hmem
  obtain ⟨x, _, hEq⟩ := List.mem_map.mp hmem
  exact ascii_cell_ne_newline image x y hEq

lemma block_grid_structure (image : Image) (t : Nat) :
    grid_shape (to_blocks image t false) (block_ch image) (block_cw image) := by
  rw [to_blocks]
  apply grid_shape_intro
  intro cy _
  rw [block_row_single]
  refine ⟨by simp, ?_⟩
  intro hmem
  obtain ⟨cx, _, hEq⟩ := List.mem_map.mp hmem
  exact block_cell_ne_newline image t cx cy hEq

lemma braille_grid_structure (image : Image) (t : Nat) :
    grid_shape (to_braille image t false) (braille_ch image) (braille_cw image) := by
  rw [to_braille]
  apply grid_shape_intro
  intro cy _
  rw [braille_row_single]
  refine ⟨by simp, ?_⟩
  intro hmem
  obtain ⟨cx, _, hEq⟩ := List.mem_map.mp hmem
  exact braille_cell_ne_newline image t cx cy hEq

lemma to_ascii_get (image : Image) (x y : Nat) (hx : x < image.width)
    (hy : y < image.height) :
    (to_ascii image false).data[y * (image.width + 1) + x]? = some (ascii_cell image x y) := by
  rw [to_ascii, text_grid_get image.width _ y x ?hW (by simpa using hy) hx]
  · rw [List.getD_eq_getElem?_getD, List.getElem?_map]
    simp [List.getElem?_range, hy, hx, ascii_row_single, List.getElem?_map]
  case hW =>
    intro r hr
    obtain ⟨y', _, rfl⟩ := List.mem_map.mp hr
    rw [ascii_row_single]
    simp

lemma to_blocks_get (image : Image) (t cx cy : Nat) (hcx : cx < block_cw image)
    (hcy : cy < block_ch image) :
    (to_blocks image t false).data[cy * (block_cw image + 1) + cx]?
      = some (block_cell image t cx cy) := by
  rw [to_blocks, text_grid_get (block_cw image) _ cy cx ?hW (by simpa using hcy) hcx]
  · rw [List.getD_eq_getElem?_getD, List.getElem?_map]
    simp [List.getElem?_range, hcy, hcx, block_row_single, List.getElem?_map]
  case hW =>
    intro r hr
    obtain ⟨cy', _, rfl⟩ := List.mem_map.mp hr
    rw [block_row_single]
    simp

lemma to_braille_get (image : Image) (t cx cy : Nat) (hcx : cx < braille_cw image)
    (hcy : cy < braille_ch image) :
    (to_braille image t false).data[cy * (braille_cw image + 1) + cx]?
      = some (braille_cell image t cx cy) := by
  rw [to_braille, text_grid_get (braille_cw image) _ cy cx ?hW (by simpa using hcy) hcx]
  · rw [List.getD_eq_getElem?_getD, List.getElem?_map]
    simp [List.getElem?_range, hcy, hcx, braille_row_single, List.getElem?_map]
  case hW =>
    intro r hr
    obtain ⟨cy', _, rfl⟩ := List.mem_map.mp hr
    rw [braille_row_single]
    simp

lemma pixel_brightness_le (p : Rgba) : pixel_brightness p ≤ 255 := by
  rw [pixel_brightness, f32_as_u8]
  split
  · omega
  · exact min_le_left _ _

/-- C2 (counterexample): at pixel `(32, 252, 22)` the spec's exact
luminance `0.299*32 + 0.587*252 + 0.114*22` is exactly `160` (glyph
index 5, `'O'`), but the code's `f32` computation gives `159` (glyph
index 4), so the renderer emits `'/'` where the claim requires `'O'`. -/
theorem c2_counterexample :
    (to_ascii imgBoundary1 false).data[0]? = some '/' ∧
    ASCII_CHARS.getD (luminance_spec 32 252 22 / 32) ' ' = 'O' ∧ ('/' : Char) ≠ 'O' := by
  decide

/-- C2 (amended): for every in-bounds pixel, the ASCII renderer emits at
the pixel's grid position the glyph at index `luminance / 32` (an index
in `0`-`7`) of the sparse-to-dense table, where the luminance is the
code's `f32` computation of `0.299*R + 0.587*G + 0.114*B` truncated to
an 8-bit value. -/
theorem c2_ascii_per_pixel (image : Image) (x y : Nat)
    (hx : x < image.width) (hy : y < image.height) :
    pixel_brightness (image.pixelAt x y) / 32 ≤ 7 ∧
    (to_ascii image false).data[y * (image.width + 1) + x]?
      = some (ASCII_CHARS.getD (pixel_brightness (image.pixelAt x y) / 32) ' ') := by
  constructor
  · have h := pixel_brightness_le (image.pixelAt x y)
    omega
  · rw [to_ascii_get image x y hx hy]
    rfl

/-- C2 (witness): the single pixel of the 1x1 white image is rendered at
position 0 with the glyph of its brightness bucket. -/
theorem c2_witness :
    pixel_brightness (imgWhite1.pixelAt 0 0) / 32 ≤ 7 ∧
    (to_ascii imgWhite1 false).data[0 * (imgWhite1.width + 1) + 0]?
      = some (ASCII_CHARS.getD (pixel_brightness (imgWhite1.pixelAt 0 0) / 32) ' ') :=
  c2_ascii_per_pixel imgWhite1 0 0 (by decide) (by decide)

/-- C3: in block and braille modes, a cell all of whose sampled pixels
have luminance strictly below the threshold is rendered as the table
entry with all darkness samples `1`, and a cell all of whose sampled
pixels are at or above the threshold as the entry with all samples `0`. -/
theorem c3_uniform_cells (image : Image) (t cx cy : Nat) :
    (cx < block_cw image → cy < block_ch image →
      ((∀ dx < 2, ∀ dy < 2,
          pixel_brightness (sample_pixel image (cx*2 + dx) (cy*2 + dy)) < t) →
        (to_blocks image t false).data[cy * (block_cw image + 1) + cx]?
          = some (BOX 1 1 1 1)) ∧
      ((∀ dx < 2, ∀ dy < 2,
          ¬ pixel_brightness (sample_pixel image (cx*2 + dx) (cy*2 + dy)) < t) →
        (to_blocks image t false).data[cy * (block_cw image + 1) + cx]?
          = some (BOX 0 0 0 0))) ∧
    (cx < braille_cw image → cy < braille_ch image →
      ((∀ dx < 2, ∀ dy < 4,
          pixel_brightness (sample_pixel image (cx*2 + dx) (cy*4 + dy)) < t) →
        (to_braille image t false).data[cy * (braille_cw image + 1) + cx]?
          = some (BRAILLE 1 1 1 1 1 1 1 1)) ∧
      ((∀ dx < 2, ∀ dy < 4,
          ¬ pixel_brightness (sample_pixel image (cx*2 + dx) (cy*4 + dy)) < t) →
        (to_braille image t false).data[cy * (braille_cw image + 1) + cx]?
          = some (BRAILLE 0 0 0 0 0 0 0 0))) := by
  constructor
  · intro hcx hcy
    constructor
    · intro hdark
      have h00 : is_dark image (cx*2 + 0) (cy*2 + 0) t = 1 := by
        rw [is_dark, if_pos (hdark 0 (by omega) 0 (by omega))]
      have h10 : is_dark image (cx*2 + 1) (cy*2 + 0) t = 1 := by
        rw [is_dark, if_pos (hdark 1 (by omega) 0 (by omega))]
      have h01 : is_dark image (cx*2 + 0) (cy*2 + 1) t = 1 := by
        rw [is_dark, if_pos (hdark 0 (by omega) 1 (by omega))]
      have h11 : is_dark image (cx*2 + 1) (cy*2 + 1) t = 1 := by
        rw [is_dark, if_pos (hdark 1 (by omega) 1 (by omega))]
      have hc : block_cell image t cx cy = BOX 1 1 1 1 := by
        simp only [block_cell]
        rw [h00, h10, h01, h11]
      rw [to_blocks_get image t cx cy hcx hcy, hc]
    · intro hlight
      have h00 : is_dark image (cx*2 + 0) (cy*2 + 0) t = 0 := by
        rw [is_dark, if_neg (hlight 0 (by omega) 0 (by omega))]
      have h10 : is_dark image (cx*2 + 1) (cy*2 + 0) t = 0 := by
        rw [is_dark, if_neg (hlight 1 (by omega) 0 (by omega))]
      have h01 : is_dark image (cx*2 + 0) (cy*2 + 1) t = 0 := by
        rw [is_dark, if_neg (hlight 0 (by omega) 1 (by omega))]
      have h11 : is_dark image (cx*2 + 1) (cy*2 + 1) t = 0 := by
        rw [is_dark, if_neg (hlight 1 (by omega) 1 (by omega))]
      have hc : block_cell image t cx cy = BOX 0 0 0 0 := by
        simp only [block_cell]
        rw [h00, h10, h01, h11]
      rw [to_blocks_get image t cx cy hcx hcy, hc]
  · intro hcx hcy
    constructor
    · intro hdark
      have h00 : is_dark image (cx*2 + 0) (cy*4 + 0) t = 1 := by
        rw [is_dark, if_pos (hdark 0 (by omega) 0 (by omega))]
      have h10 : is_dark image (cx*2 + 1) (cy*4 + 0) t = 1 := by
        rw [is_dark, if_pos (hdark 1 (by omega) 0 (by omega))]
      have h01 : is_dark image (cx*2 + 0) (cy*4 + 1) t = 1 := by
        rw [is_dark, if_pos (hdark 0 (by omega) 1 (by omega))]
      have h11 : is_dark image (cx*2 + 1) (cy*4 + 1) t = 1 := by
        rw [is_dark, if_pos (hdark 1 (by omega) 1 (by omega))]
      have h02 : is_dark image (cx*2 + 0) (cy*4 + 2) t = 1 := by
        rw [is_dark, if_pos (hdark 0 (by omega) 2 (by omega))]
      have h12 : is_dark image (cx*2 + 1) (cy*4 + 2) t = 1 := by
        rw [is_dark, if_pos (hdark 1 (by omega) 2 (by omega))]
      have h03 : is_dark image (cx*2 + 0) (cy*4 + 3) t = 1 := by
        rw [is_dark, if_pos (hdark 0 (by omega) 3 (by omega))]
      have h13 : is_dark image (cx*2 + 1) (cy*4 + 3) t = 1 := by
        rw [is_dark, if_pos (hdark 1 (by omega) 3 (by omega))]
      have hc : braille_cell image t cx cy = BRAILLE 1 1 1 1 1 1 1 1 := by
        simp only [braille_cell]
        rw [h00, h10, h01, h11, h02, h12, h03, h13]
      rw [to_braille_get image t cx cy hcx hcy, hc]
    · intro hlight
      have h00 : is_dark image (cx*2 + 0) (cy*4 + 0) t = 0 := by
        rw [is_dark, if_neg (hlight 0 (by omega) 0 (by omega))]
      have h10 : is_dark image (cx*2 + 1) (cy*4 + 0) t = 0 := by
        rw [is_dark, if_neg (hlight 1 (by omega) 0 (by omega))]
      have h01 : is_dark image (cx*2 + 0) (cy*4 + 1) t = 0 := by
        rw [is_dark, if_neg (hlight 0 (by omega) 1 (by omega))]
      have h11 : is_dark image (cx*2 + 1) (cy*4 + 1) t = 0 := by
        rw [is_dark, if_neg (hlight 1 (by omega) 1 (by omega))]
      have h02 : is_dark image (cx*2 + 0) (cy*4 + 2) t = 0 := by
        rw [is_dark, if_neg (hlight 0 (by omega) 2 (by omega))]
      have h12 : is_dark image (cx*2 + 1) (cy*4 + 2) t = 0 := by
        rw [is_dark, if_neg (hlight 1 (by omega) 2 (by omega))]
      have h03 : is_dark image (cx*2 + 0) (cy*4 + 3) t = 0 := by
        rw [is_dark, if_neg (hlight 0 (by omega) 3 (by omega))]
      have h13 : is_dark image (cx*2 + 1) (cy*4 + 3) t = 0 := by
        rw [is_dark, if_neg (hlight 1 (by omega) 3 (by omega))]
      have hc : braille_cell image t cx cy = BRAILLE 0 0 0 0 0 0 0 0 := by
        simp only [braille_cell]
        rw [h00, h10, h01, h11, h02, h12, h03, h13]
      rw [to_braille_get image t cx cy hcx hcy, hc]

/-- C3 (witness): the single braille cell of an all-black 2x4 image at
the default threshold renders as the all-dots braille character. -/
theorem c3_witness :
    (to_braille imgBlack2x4 96 false).data[0 * (braille_cw imgBlack2x4 + 1) + 0]?
      = some (BRAILLE 1 1 1 1 1 1 1 1) :=
  ((c3_uniform_cells imgBlack2x4 96 0 0).2 (by decide) (by decide)).1 (by decide)

/-- C6 (counterexample): for a 1-pixel-wide image of height
`2^24 + 1 = 16777217` (whose `f32` conversion is inexact), braille mode
produces `4194304` lines, not `ceil(16777217/4) = 4194305` as the claim
states. -/
theorem c6_counterexample :
    ¬ grid_shape (to_braille imgTall 96 false) ((16777217 + 3) / 4) ((1 + 1) / 2) := by
  intro h
  have h1 := grid_shape_count h
  have h2 := grid_shape_count (braille_grid_structure imgTall 96)
  have h3 : braille_ch imgTall = 4194304 := by decide
  rw [h3] at h2
  rw [h1] at h2
  omega

/-- C6 (amended): for every image whose dimensions are at most `2^24`
(so that the `f32` cell-count computation is exact), the rendered text is
a grid with one glyph per cell before doubling: ASCII mode has `height`
lines of `width` glyphs, block mode `ceil(height/2)` lines of
`ceil(width/2)` glyphs, braille mode `ceil(height/4)` lines of
`ceil(width/2)` glyphs. -/
theorem c6_grid_shape (image : Image) (t : Nat)
    (hw : image.width ≤ 2^24) (hh : image.height ≤ 2^24) :
    grid_shape (to_ascii image false) image.height image.width ∧
    grid_shape (to_blocks image t false)
      ((image.height + 1) / 2) ((image.width + 1) / 2) ∧
    grid_shape (to_braille image t false)
      ((image.height + 3) / 4) ((image.width + 1) / 2) := by
  refine ⟨ascii_grid_structure image, ?_, ?_⟩
  · have h := block_grid_structure image t
    rwa [block_ch, block_cw, cell_count_two _ hh, cell_count_two _ hw] at h
  · have h := braille_grid_structure image t
    rwa [braille_ch, braille_cw, cell_count_four _ hh, cell_count_two _ hw] at h

/-- C6 (witness): the grids of the 3x5 image in all three modes. -/
theorem c6_witness :
    grid_shape (to_ascii imgGray3x5 false) imgGray3x5.height imgGray3x5.width ∧
    grid_shape (to_blocks imgGray3x5 96 false)
      ((imgGray3x5.height + 1) / 2) ((imgGray3x5.width + 1) / 2) ∧
    grid_shape (to_braille imgGray3x5 96 false)
      ((imgGray3x5.height + 3) / 4) ((imgGray3x5.width + 1) / 2) :=
  c6_grid_shape imgGray3x5 96 (by decide) (by decide)

lemma dup_append (a b : List Char) :
    dup_non_newline (a ++ b) = dup_non_newline a ++ dup_non_newline b := by
  induction a with
  | nil => rfl
  | cons c cs ih => simp [dup_non_newline, ih]

lemma dup_flatten (L : List (List Char)) :
    dup_non_newline L.flatten = (L.map dup_non_newline).flatten := by
  induction L with
  | nil => rfl
  | cons a l ih => rw [List.flatten_cons, dup_append, ih, List.map_cons, List.flatten_cons]

lemma dup_cells {α : Type} (f : α → Char) (l : List α) (hf : ∀ x ∈ l, f x ≠ '\n') :
    dup_non_newline ((l.map fun x => push_double false (f x)).flatten)
      = (l.map fun x => push_double true (f x)).flatten := by
  induction l with
  | nil => rfl
  | cons a as ih =>
    rw [List.map_cons, List.flatten_cons, dup_append, List.map_cons, List.flatten_cons]
    rw [ih (fun x hx => hf x (List.mem_cons_of_mem a hx))]
    congr 1
    simp [push_double, dup_non_newline, hf a (List.mem_cons_self a as)]

lemma dup_mode (rowF rowT : Nat → List Char) (L : Nat)
    (h : ∀ y, dup_non_newline (rowF y) = rowT y) :
    (⟨dup_non_newline (text_grid ((List.range L).map rowF)).data⟩ : String)
      = text_grid ((List.range L).map rowT) := by
  apply congrArg String.mk
  show dup_non_newline (((List.range L).map rowF).map (fun r => r ++ ['\n'])).flatten
    = (((List.range L).map rowT).map (fun r => r ++ ['\n'])).flatten
  rw [List.map_map, List.map_map, dup_flatten, List.map_map]
  congr 1
  apply List.map_congr_left
  intro y _
  show dup_non_newline (rowF y ++ ['\n']) = rowT y ++ ['\n']
  rw [dup_append, h y]
  rfl

lemma dup_ascii_row (image : Image) (y : Nat) :
    dup_non_newline (ascii_row image false y) = ascii_row image true y := by
  rw [ascii_row, ascii_row]
  exact dup_cells (fun x => ascii_cell image x y) (List.range image.width)
    (fun x _ => ascii_cell_ne_newline image x y)

lemma dup_block_row (image : Image) (t : Nat) (cy : Nat) :
    dup_non_newline (block_row image t false cy) = block_row image t true cy := by
  rw [block_row, block_row]
  exact dup_cells (fun cx => block_cell image t cx cy) (List.range (block_cw image))
    (fun cx _ => block_cell_ne_newline image t cx cy)

lemma dup_braille_row (image : Image) (t : Nat) (cy : Nat) :
    dup_non_newline (braille_row image t false cy) = braille_row image t true cy := by
  rw [braille_row, braille_row]
  exact dup_cells (fun cx => braille_cell image t cx cy) (List.range (braille_cw image))
    (fun cx _ => braille_cell_ne_newline image t cx cy)

/-- C5: in every mode, the double-width output is the single-width
output with every non-newline character duplicated in place (so each
cell's glyph appears exactly twice when `--double-width` is set, once
otherwise). -/
theorem c5_double_width (image : Image) (t : Nat) :
    to_ascii image true = ⟨dup_non_newline (to_ascii image false).data⟩ ∧
    to_blocks image t true = ⟨dup_non_newline (to_blocks image t false).data⟩ ∧
    to_braille image t true = ⟨dup_non_newline (to_braille image t false).data⟩ := by
  refine ⟨?_, ?_, ?_⟩
  · exact (dup_mode (ascii_row image false) (ascii_row image true) image.height
      (dup_ascii_row image)).symm
  · exact (dup_mode (block_row image t false) (block_row image t true) (block_ch image)
      (dup_block_row image t)).symm
  · exact (dup_mode (braille_row image t false) (braille_row image t true) (braille_ch image)
      (dup_braille_row image t)).symm

lemma pixel_brightness_rgb {p q : Rgba} (hr : p.r = q.r) (hg : p.g = q.g)
    (hb : p.b = q.b) : pixel_brightness p = pixel_brightness q := by
  rw [pixel_brightness, pixel_brightness, hr, hg, hb]

/-- C10: the alpha channel of in-bounds pixels is ignored in every mode:
two images with equal dimensions and equal RGB channels render
identically in ASCII, block and braille modes, whatever their alpha
channels. -/
theorem c10_alpha_ignored (img1 img2 : Image) (t : Nat) (double : Bool)
    (hw : img1.width = img2.width) (hh : img1.height = img2.height)
    (hrgb : ∀ x < img1.width, ∀ y < img1.height,
      (img1.pixelAt x y).r = (img2.pixelAt x y).r ∧
      (img1.pixelAt x y).g = (img2.pixelAt x y).g ∧
      (img1.pixelAt x y).b = (img2.pixelAt x y).b) :
    to_ascii img1 double = to_ascii img2 double ∧
    to_blocks img1 t double = to_blocks img2 t double ∧
    to_braille img1 t double = to_braille img2 t double := by
  have hpb : ∀ x y, x < img1.width → y < img1.height →
      pixel_brightness (img1.pixelAt x y) = pixel_brightness (img2.pixelAt x y) :=
    fun x y hx hy =>
      pixel_brightness_rgb (hrgb x hx y hy).1 (hrgb x hx y hy).2.1 (hrgb x hx y hy).2.2
  have hsample : ∀ x y,
      pixel_brightness (sample_pixel img1 x y) = pixel_brightness (sample_pixel img2 x y) := by
    intro x y
    rw [sample_pixel, sample_pixel, ← hw, ← hh]
    by_cases hin : x < img1.width ∧ y < img1.height
    · rw [if_pos hin, if_pos hin]
      exact hpb x y hin.1 hin.2
    · rw [if_neg hin, if_neg hin]
  have hdark : ∀ x y, is_dark img1 x y t = is_dark img2 x y t := by
    intro x y
    rw [is_dark, is_dark, hsample x y]
  have hbcw : block_cw img1 = block_cw img2 := by rw [block_cw, block_cw, hw]
  have hbch : block_ch img1 = block_ch img2 := by rw [block_ch, block_ch, hh]
  have hrcw : braille_cw img1 = braille_cw img2 := by rw [braille_cw, braille_cw, hw]
  have hrch : braille_ch img1 = braille_ch img2 := by rw [braille_ch, braille_ch, hh]
  refine ⟨?_, ?_, ?_⟩
  · rw [to_ascii, to_ascii, ← hh]
    apply congrArg text_grid
    apply List.map_congr_left
    intro y hy
    rw [ascii_row, ascii_row, ← hw]
    apply congrArg List.flatten
    apply List.map_congr_left
    intro x hx
    apply congrArg (push_double double)
    rw [ascii_cell, ascii_cell,
      hpb x y (List.mem_range.mp hx) (List.mem_range.mp hy)]
  · rw [to_blocks, to_blocks, ← hbch]
    apply congrArg text_grid
    apply List.map_congr_left
    intro cy _
    rw [block_row, block_row, ← hbcw]
    apply congrArg List.flatten
    apply List.map_congr_left
    intro cx _
    apply congrArg (push_double double)
    simp only [block_cell, hdark]
  · rw [to_braille, to_braille, ← hrch]
    apply congrArg text_grid
    apply List.map_congr_left
    intro cy _
    rw [braille_row, braille_row, ← hrcw]
    apply congrArg List.flatten
    apply List.map_congr_left
    intro cx _
    apply congrArg (push_double double)
    simp only [braille_cell, hdark]

/-- C10 (witness): a fully transparent black 1x1 image renders exactly
like an opaque black 1x1 image in all three modes, and its in-bounds
transparent black pixel still classifies as dark at the default
threshold. -/
theorem c10_witness :
    (to_ascii imgAlpha0 false = to_ascii imgBlack1 false ∧
     to_blocks imgAlpha0 96 false = to_blocks imgBlack1 96 false ∧
     to_braille imgAlpha0 96 false = to_braille imgBlack1 96 false) ∧
    is_dark imgAlpha0 0 0 96 = 1 :=
  ⟨c10_alpha_ignored imgAlpha0 imgBlack1 96 false rfl rfl
    (by decide), by decide⟩

end ImageAsText
